import Mathlib

/-!
Verification development for the goodwe2influxdb repository (three Python
modules: `azrouter2influxdb.py`, `goodwe2influxdb.py`,
`telegraf_plugin_main.py`).

The embedding models Python JSON-like runtime values as the inductive type
`Json`; Python exceptions raised by the flattening code as `PyErr`; the
external `influxdb_client.Point` as the structure `Point` together with a
simple line-protocol serializer (the exact escaping rules are delegated to
the external library and are immaterial to the properties proved here).
Numbers are modelled as integers; no property proved below depends on
floating-point formatting.
-/

/-- A Python runtime value as seen by `unroll_json`: JSON scalars, ordered
mappings (`dict`, insertion-ordered key/value pairs), sequences (`list`),
plus `other`, an unrecognized Python object carrying its type name
(`type(x).__qualname__`), which the code rejects with `ValueError`. -/
inductive Json where
  | str (s : String)
  | num (n : Int)
  | bool (b : Bool)
  | null
  | obj (entries : List (String × Json))
  | arr (elems : List Json)
  | other (typeName : String)

/-- Exceptions raised by the flattening code: `KeyError`, `ValueError`
and `TypeError`, each with their message. -/
inductive PyErr where
  | keyError (msg : String)
  | valueError (msg : String)
  | typeError (msg : String)
deriving DecidableEq

mutual

/-- Python `repr` of a value, as far as the embedding needs it. -/
def pyRepr : Json → String
  | .str s => "\x27" ++ s ++ "\x27"
  | .num n => toString n
  | .bool true => "True"
  | .bool false => "False"
  | .null => "None"
  | .obj es => "\x7b" ++ pyReprEntries es ++ "\x7d"
  | .arr xs => "[" ++ pyReprElems xs ++ "]"
  | .other t => "<" ++ t ++ " object>"

/-- `repr` of the comma-separated entries of a Python dict. -/
def pyReprEntries : List (String × Json) → String
  | [] => ""
  | [(k, v)] => pyRepr (.str k) ++ ": " ++ pyRepr v
  | (k, v) :: rest => pyRepr (.str k) ++ ": " ++ pyRepr v ++ ", " ++ pyReprEntries rest

/-- `repr` of the comma-separated elements of a Python list. -/
def pyReprElems : List Json → String
  | [] => ""
  | [x] => pyRepr x
  | x :: rest => pyRepr x ++ ", " ++ pyReprElems rest

end

/-- Python `str` of a value: identity on strings, `repr` otherwise
(which agrees with `str` on numbers, booleans, `None` and containers). -/
def pyStr : Json → String
  | .str s => s
  | j => pyRepr j

/-- Python type name of a value (`type(x).__qualname__`). -/
def pyType : Json → String
  | .str _ => "str"
  | .num _ => "int"
  | .bool _ => "bool"
  | .null => "NoneType"
  | .obj _ => "dict"
  | .arr _ => "list"
  | .other t => t

/-- Model of the external `influxdb_client.Point`: a measurement name, an
ordered tag set and an ordered field sequence. -/
structure Point where
  measurement : String
  tags : List (String × String)
  fields : List (String × Json)

/-- `Point.tag`: append one tag (the external library stores it verbatim). -/
def Point.tag (p : Point) (k v : String) : Point :=
  { p with tags := p.tags ++ [(k, v)] }

/-- `Point.field`: append one field. -/
def Point.field (p : Point) (k : String) (v : Json) : Point :=
  { p with fields := p.fields ++ [(k, v)] }

/-- Model of `Point.to_line_protocol` of the external library, following the
wire-format sketch `measurement,tag1=v1,... field1=f1,...`; exact escaping
and numeric formatting are the external serializer's business and no claim
below depends on them. -/
def to_line_protocol (p : Point) : String :=
  p.measurement
    ++ String.join (p.tags.map (fun kv => "," ++ kv.1 ++ "=" ++ kv.2))
    ++ " "
    ++ String.intercalate "," (p.fields.map (fun kv => kv.1 ++ "=" ++ pyStr kv.2))

/-- `stdin_lines` (identical in all three modules): reads lines from stdin
until `readline` returns an empty string, which happens exactly at EOF; each
complete line read before EOF is yielded as one trigger. The raw stream is
modelled as the list of successive `readline` results, where `""` marks
EOF. -/
def stdin_lines (reads : List String) : List String :=
  reads.takeWhile (fun l => l ≠ "")

/-!
## Flattener (`azrouter2influxdb.unroll_json`)
-/

/-- The prefix adjustment at the top of the mapping/sequence branches:
`if prefix: prefix += '_'` — an underscore separator is appended only to a
non-empty prefix. -/
def withSep (p : String) : String :=
  if p = "" then p else p ++ "_"

/-- Python subscription `j[key]` with a string key, as used on sequence
elements: succeeds only on a dict that holds the key (`KeyError` otherwise);
any non-dict raises `TypeError`. -/
def getItem (j : Json) (key : String) : Except PyErr Json :=
  match j with
  | .obj entries =>
      match entries.lookup key with
      | some v => .ok v
      | none => .error (.keyError key)
  | _ => .error (.typeError (pyType j ++ " is not subscriptable"))

/-- The message of the `KeyError` re-raised by the sequence branch of
`unroll_json`. -/
def listKeyErrMsg : String :=
  "Expecting lists to contain just dictionaries just `id` and `value` items."

/-- The `except KeyError ... raise KeyError(...) from ex` wrapper around the
sequence branch: a `KeyError` is replaced by one with the fixed message;
other exceptions propagate unchanged. -/
def rewrapKey : PyErr → PyErr
  | .keyError _ => .keyError listKeyErrMsg
  | e => e

/-- The sequence branch body of `unroll_json`: for each element, in order,
yield `(prefix + str(entry['id']), str(entry['value']))`; the first failing
subscription aborts the whole traversal (the consumer never receives a pair
for the failing element or any later one). `p` is the prefix already
carrying its separator. -/
def unrollList (p : String) : List Json → Except PyErr (List (String × Json))
  | [] => .ok []
  | e :: rest =>
      match getItem e "id" with
      | .error er => .error er
      | .ok i =>
          match getItem e "value" with
          | .error er => .error er
          | .ok v =>
              match unrollList p rest with
              | .error er => .error er
              | .ok t => .ok ((p ++ pyStr i, .str (pyStr v)) :: t)

mutual

/-- `unroll_json(prefix, json)`: scalars and `None` yield the single pair
`(prefix, json)`; a dict recursively flattens each value under
`prefix + '_' + key` (just `key` when the prefix is empty), concatenating in
insertion order; a list is handled by `unrollList` with `KeyError`s rewrapped;
any other runtime type raises `ValueError` naming the offending type. The
generator is modelled eagerly: an exception anywhere yields an `error` result
for the whole call, matching what a consumer that drains the generator
observes. -/
def unroll_json (p : String) : Json → Except PyErr (List (String × Json))
  | .str s => .ok [(p, .str s)]
  | .num n => .ok [(p, .num n)]
  | .bool b => .ok [(p, .bool b)]
  | .null => .ok [(p, .null)]
  | .obj es => unrollEntries (withSep p) es
  | .arr es =>
      match unrollList (withSep p) es with
      | .error er => .error (rewrapKey er)
      | .ok r => .ok r
  | .other t =>
      .error (.valueError ("Unknown type `" ++ t ++ "`: " ++ pyStr (.other t)))

/-- The dict branch of `unroll_json`: flatten each value under its extended
prefix and concatenate the results in insertion order; `p` is the prefix
already carrying its separator. -/
def unrollEntries (p : String) : List (String × Json) → Except PyErr (List (String × Json))
  | [] => .ok []
  | (k, v) :: rest =>
      match unroll_json (p ++ k) v with
      | .error er => .error er
      | .ok h =>
          match unrollEntries p rest with
          | .error er => .error er
          | .ok t => .ok (h ++ t)

end

/-!
## Point builder (`azrouter2influxdb.build_point`)
-/

/-- `build_point(measurement_name, tags, json)`: start from a fresh point,
copy every tag verbatim in insertion order, then append every pair produced
by `unroll_json('', json)` as a field, in order. A flattening exception
propagates and no point is returned. -/
def build_point (m : String) (tags : List (String × String)) (j : Json) :
    Except PyErr Point :=
  let pt := tags.foldl (fun acc kv => acc.tag kv.1 kv.2)
    { measurement := m, tags := [], fields := [] }
  match unroll_json "" j with
  | .error er => .error er
  | .ok pairs => .ok (pairs.foldl (fun acc kv => acc.field kv.1 kv.2) pt)

/-!
## Execd protocol driver (`telegraf_plugin_main`)
-/

/-- One successful result of `points_fn.__anext__()`: either a single
`Point` or an iterable of `Point`s. Pulling past the end of the modelled
list is the `StopAsyncIteration` case. -/
inductive Yield where
  | single (p : Point)
  | batch (ps : List Point)

/-- `if isinstance(points, Point): points = [points]` — a single point is
wrapped into a one-element batch, a batch is used as-is. -/
def toBatch : Yield → List Point
  | .single p => [p]
  | .batch ps => ps

/-- An observable event on the output channel (stdout): a written line, or
a flush. -/
inductive OutEvent where
  | line (s : String)
  | flush
deriving DecidableEq

/-- `_emit_points(points)`: one serialized line per point, in order,
followed by a single flush for the whole batch. -/
def emit_points (ps : List Point) : List OutEvent :=
  ps.map (fun pt => OutEvent.line (to_line_protocol pt)) ++ [OutEvent.flush]

/-- The observable outcome of one driver run: the events on stdout, the
diagnostic lines (stderr / logging), the number of times the point source
was pulled (`__anext__` calls, the failing one included), and the process
exit code. -/
structure RunResult where
  out : List OutEvent
  err : List String
  pulls : Nat
  exitCode : Nat
deriving DecidableEq

/-- The log message of the `except StopAsyncIteration` handler. -/
def stoppedMsg : String :=
  "The generator function stopped unexpectedly"

/-- The diagnostic line printed by the interactive branch. -/
def ttyMsg : String :=
  "stderr is a tty, logging just a single query result:"

/-- Python `print(point, file=sys.stderr)` on a yield of the source. -/
def showYield : Yield → String
  | .single p => to_line_protocol p
  | .batch ps => "[" ++ String.intercalate ", " (ps.map to_line_protocol) ++ "]"

/-- The trigger loop of `_async_main`: for each line read from stdin (their
count is the first argument) pull the next item from the source; on
`StopAsyncIteration` log and `sys.exit(1)`; otherwise wrap a single point
into a batch and emit it. When the triggers are exhausted (EOF) the loop
ends and the process exits 0. -/
def driverLoop : Nat → List Yield → RunResult
  | 0, _ => { out := [], err := [], pulls := 0, exitCode := 0 }
  | _ + 1, [] => { out := [], err := [stoppedMsg], pulls := 1, exitCode := 1 }
  | n + 1, y :: rest =>
      let r := driverLoop n rest
      { out := emit_points (toBatch y) ++ r.out
        err := r.err
        pulls := r.pulls + 1
        exitCode := r.exitCode }

/-- `_async_main(points_fn)`: the code first tests `os.isatty` on the file
descriptor of **stderr** (the environment's stdout ttyness, also passed
here, is never consulted). If stderr is a tty, one item is pulled and
printed to stderr and the coroutine returns (exit 0); if the source is
already exhausted, the `async for` body never runs and control falls
through to the trigger loop over the same, exhausted iterator. Otherwise
the trigger loop runs over the lines read from stdin. -/
def async_main (stdoutIsTty stderrIsTty : Bool) (stdinReads : List String)
    (source : List Yield) : RunResult :=
  if stderrIsTty then
    match source with
    | y :: _ => { out := [], err := [ttyMsg, showYield y], pulls := 1, exitCode := 0 }
    | [] =>
        let r := driverLoop (stdin_lines stdinReads).length []
        { r with pulls := r.pulls + 1 }
  else
    driverLoop (stdin_lines stdinReads).length source

/-!
## AZ-router adapter loop (`azrouter2influxdb.query_data`)
-/

/-- Python dict merge `\x7b**a, **b\x7d`: entries of `a` in order, values
overridden by `b` where both share a key, then the entries of `b` whose key
is absent from `a`, in order. -/
def dictMerge (a b : List (String × Json)) : List (String × Json) :=
  a.map (fun kv => (kv.1, (b.lookup kv.1).getD kv.2))
    ++ b.filter (fun kv => (a.lookup kv.1).isNone)

/-- The environment of one `query_data` run: ttyness of stdout (this module
does test stdout), the raw stdin reads, and the successive JSON object
bodies served by the `/api/v1/status` and `/api/v1/power` endpoints (the
`i`-th fetch of each endpoint returns the `i`-th body). -/
structure AzEnv where
  stdoutIsTty : Bool
  stdinReads : List String
  statusBody : Nat → List (String × Json)
  powerBody : Nat → List (String × Json)

/-- The observable outcome of one `query_data` run: how many fetches hit
each endpoint, the lines printed to stdout (each flushed), and the
`logging.info` lines. -/
structure AzResult where
  statusCalls : Nat
  powerCalls : Nat
  out : List String
  log : List String

/-- `print_sample(measurement_name, tags, json)`: log the response data,
build a point from it, and log its line-protocol form. -/
def print_sample (m : String) (tags : List (String × String)) (j : Json) :
    Except PyErr (List String) :=
  match build_point m tags j with
  | .error er => .error er
  | .ok pt =>
      .ok ["Response data: " ++ pyStr j,
           "In line format: " ++ to_line_protocol pt]

/-- The non-interactive loop of `query_data`: on the `i`-th trigger line,
fetch the status endpoint (its `i`-th body), build a point from that value
alone with empty tags, and print its serialized line with a flush. The
second argument counts the remaining triggers. -/
def azLoop (m : String) (statusBody : Nat → List (String × Json)) :
    Nat → Nat → Except PyErr (List String)
  | _, 0 => .ok []
  | i, n + 1 =>
      match build_point m [] (.obj (statusBody i)) with
      | .error er => .error er
      | .ok pt =>
          match azLoop m statusBody (i + 1) n with
          | .error er => .error er
          | .ok rest => .ok (to_line_protocol pt :: rest)

/-- `query_data(measurement_name, host)`: when stdout is a tty, fetch
status and power once each, merge them (`\x7b**status_json, **power_json\x7d`)
and `print_sample` the merged value, writing nothing to stdout; otherwise
run the trigger loop, which fetches **only** the status endpoint once per
trigger. -/
def query_data (m : String) (env : AzEnv) : Except PyErr AzResult :=
  if env.stdoutIsTty then
    match print_sample m [] (.obj (dictMerge (env.statusBody 0) (env.powerBody 0))) with
    | .error er => .error er
    | .ok logs => .ok { statusCalls := 1, powerCalls := 1, out := [], log := logs }
  else
    let n := (stdin_lines env.stdinReads).length
    match azLoop m env.statusBody 0 n with
    | .error er => .error er
    | .ok lines => .ok { statusCalls := n, powerCalls := 0, out := lines, log := [] }

/-!
## Goodwe static tag set (`goodwe2influxdb.get_runtime_data`)
-/

/-- The optional inverter attributes probed for tags, in source order. -/
def tagAttrs : List String :=
  ["model_name", "serial_number", "dsp1_version", "dsp2_version",
   "arm_version", "firmware"]

/-- The inverter object, as far as the tag collection reads it: each probed
attribute is either absent (`none`) or present with a string value. -/
structure Inverter where
  model_name : Option String
  serial_number : Option String
  dsp1_version : Option String
  dsp2_version : Option String
  arm_version : Option String
  firmware : Option String

/-- `getattr(inverter, attr, None)` for the probed attribute names. -/
def getattrOpt (inv : Inverter) : String → Option String
  | "model_name" => inv.model_name
  | "serial_number" => inv.serial_number
  | "dsp1_version" => inv.dsp1_version
  | "dsp2_version" => inv.dsp2_version
  | "arm_version" => inv.arm_version
  | "firmware" => inv.firmware
  | _ => none

/-- The static tag set built at start-up: `\x7b"ip_address": ip_address\x7d`,
then for each probed attribute `if value: tags[attr] = value` — `None` and
the empty string (Python-falsy) are both skipped. -/
def static_tags (ip : String) (inv : Inverter) : List (String × String) :=
  ("ip_address", ip) ::
    tagAttrs.filterMap (fun a =>
      match getattrOpt inv a with
      | none => none
      | some v => if v = "" then none else some (a, v))

/-!
## Big-step yield relation of the flattener

`Unrolls p v r` mirrors, rule by rule, the control paths of `unroll_json`:
a derivation exists exactly for the runs the code can take, and relates the
input to the complete outcome the consumer observes (the full pair list, or
the exception). The determinism of the flattener is the statement that this
relation is functional.
-/

inductive Unrolls : String → Json → Except PyErr (List (String × Json)) → Prop where
  | scalarStr (p s) : Unrolls p (.str s) (.ok [(p, .str s)])
  | scalarNum (p n) : Unrolls p (.num n) (.ok [(p, .num n)])
  | scalarBool (p b) : Unrolls p (.bool b) (.ok [(p, .bool b)])
  | scalarNull (p) : Unrolls p .null (.ok [(p, .null)])
  | objNil (p) : Unrolls p (.obj []) (.ok [])
  | objCons (p k v rest h t) :
      Unrolls (withSep p ++ k) v (.ok h) →
      Unrolls p (.obj rest) (.ok t) →
      Unrolls p (.obj ((k, v) :: rest)) (.ok (h ++ t))
  | objConsHeadErr (p k v rest er) :
      Unrolls (withSep p ++ k) v (.error er) →
      Unrolls p (.obj ((k, v) :: rest)) (.error er)
  | objConsTailErr (p k v rest h er) :
      Unrolls (withSep p ++ k) v (.ok h) →
      Unrolls p (.obj rest) (.error er) →
      Unrolls p (.obj ((k, v) :: rest)) (.error er)
  | arrNil (p) : Unrolls p (.arr []) (.ok [])
  | arrCons (p e rest i v t) :
      getItem e "id" = .ok i →
      getItem e "value" = .ok v →
      Unrolls p (.arr rest) (.ok t) →
      Unrolls p (.arr (e :: rest))
        (.ok ((withSep p ++ pyStr i, .str (pyStr v)) :: t))
  | arrIdErr (p e rest er) :
      getItem e "id" = .error er →
      Unrolls p (.arr (e :: rest)) (.error (rewrapKey er))
  | arrValErr (p e rest i er) :
      getItem e "id" = .ok i →
      getItem e "value" = .error er →
      Unrolls p (.arr (e :: rest)) (.error (rewrapKey er))
  | arrTailErr (p e rest i v er) :
      getItem e "id" = .ok i →
      getItem e "value" = .ok v →
      Unrolls p (.arr rest) (.error er) →
      Unrolls p (.arr (e :: rest)) (.error er)
  | otherErr (p t) :
      Unrolls p (.other t)
        (.error (.valueError ("Unknown type `" ++ t ++ "`: " ++ pyStr (.other t))))

/-- Every derivation of the yield relation computes exactly the value of
`unroll_json` — the relation is the graph of the function. -/
theorem unrolls_eq_run {p : String} {v : Json}
    {r : Except PyErr (List (String × Json))} (h : Unrolls p v r) :
    unroll_json p v = r := by
  induction h with
  | scalarStr p s => rfl
  | scalarNum p n => rfl
  | scalarBool p b => rfl
  | scalarNull p => rfl
  | objNil p => rfl
  | objCons p k v rest h t _ _ ihh iht =>
      show unrollEntries (withSep p) ((k, v) :: rest) = _
      rw [unrollEntries]
      rw [show unroll_json (withSep p ++ k) v = .ok h from ihh]
      rw [show unrollEntries (withSep p) rest = .ok t from iht]
  | objConsHeadErr p k v rest er _ ihh =>
      show unrollEntries (withSep p) ((k, v) :: rest) = _
      rw [unrollEntries]
      rw [show unroll_json (withSep p ++ k) v = .error er from ihh]
  | objConsTailErr p k v rest h er _ _ ihh iht =>
      show unrollEntries (withSep p) ((k, v) :: rest) = _
      rw [unrollEntries]
      rw [show unroll_json (withSep p ++ k) v = .ok h from ihh]
      rw [show unrollEntries (withSep p) rest = .error er from iht]
  | arrNil p => rfl
  | arrCons p e rest i v t hid hval _ iht =>
      have iht : unroll_json p (.arr rest) = .ok t := iht
      rw [unroll_json] at iht ⊢
      rw [unrollList, hid, hval]
      cases hrest : unrollList (withSep p) rest with
      | error er => rw [hrest] at iht; cases iht
      | ok t0 =>
          rw [hrest] at iht
          cases iht
          rfl
  | arrIdErr p e rest er hid =>
      rw [unroll_json, unrollList, hid]
  | arrValErr p e rest i er hid hval =>
      rw [unroll_json, unrollList, hid, hval]
  | arrTailErr p e rest i v er hid hval _ iht =>
      have iht : unroll_json p (.arr rest) = .error er := iht
      rw [unroll_json] at iht ⊢
      rw [unrollList, hid, hval]
      cases hrest : unrollList (withSep p) rest with
      | error er0 =>
          rw [hrest] at iht
          cases iht
          rfl
      | ok t0 => rw [hrest] at iht; cases iht
  | otherErr p t => rfl

/-- The sequence case of totality: the run of `unroll_json` on a list node
is derivable. -/
theorem unrollsArr_run (p : String) (es : List Json) :
    Unrolls p (.arr es) (unroll_json p (.arr es)) := by
  induction es with
  | nil => exact .arrNil p
  | cons e rest ih =>
      cases hid : getItem e "id" with
      | error er =>
          have : unroll_json p (.arr (e :: rest)) = .error (rewrapKey er) := by
            rw [unroll_json, unrollList, hid]
          rw [this]
          exact .arrIdErr p e rest er hid
      | ok i =>
          cases hval : getItem e "value" with
          | error er =>
              have : unroll_json p (.arr (e :: rest)) = .error (rewrapKey er) := by
                rw [unroll_json, unrollList, hid, hval]
              rw [this]
              exact .arrValErr p e rest i er hid hval
          | ok v =>
              cases hrest : unrollList (withSep p) rest with
              | error er =>
                  have htail : unroll_json p (.arr rest) = .error (rewrapKey er) := by
                    rw [unroll_json, hrest]
                  rw [htail] at ih
                  have : unroll_json p (.arr (e :: rest)) = .error (rewrapKey er) := by
                    rw [unroll_json, unrollList, hid, hval, hrest]
                  rw [this]
                  exact .arrTailErr p e rest i v (rewrapKey er) hid hval ih
              | ok t =>
                  have htail : unroll_json p (.arr rest) = .ok t := by
                    rw [unroll_json, hrest]
                  rw [htail] at ih
                  have : unroll_json p (.arr (e :: rest)) =
                      .ok ((withSep p ++ pyStr i, .str (pyStr v)) :: t) := by
                    rw [unroll_json, unrollList, hid, hval, hrest]
                  rw [this]
                  exact .arrCons p e rest i v t hid hval ih

mutual

/-- Totality: every input has a derivation, and it yields exactly the run of
`unroll_json`. -/
theorem unrolls_run (p : String) (v : Json) : Unrolls p v (unroll_json p v) :=
  match v with
  | .str s => .scalarStr p s
  | .num n => .scalarNum p n
  | .bool b => .scalarBool p b
  | .null => .scalarNull p
  | .obj es => unrollsEntries_run p es
  | .arr es => unrollsArr_run p es
  | .other t => .otherErr p t

/-- The mapping case of totality. -/
theorem unrollsEntries_run (p : String) (es : List (String × Json)) :
    Unrolls p (.obj es) (unroll_json p (.obj es)) :=
  match es with
  | [] => .objNil p
  | (k, v) :: rest => by
      have hh := unrolls_run (withSep p ++ k) v
      have ht := unrollsEntries_run p rest
      cases hv : unroll_json (withSep p ++ k) v with
      | error er =>
          rw [hv] at hh
          have : unroll_json p (.obj ((k, v) :: rest)) = .error er := by
            show unrollEntries (withSep p) ((k, v) :: rest) = _
            rw [unrollEntries, hv]
          rw [this]
          exact .objConsHeadErr p k v rest er hh
      | ok h =>
          rw [hv] at hh
          cases hrest : unrollEntries (withSep p) rest with
          | error er =>
              rw [show unroll_json p (.obj rest) = unrollEntries (withSep p) rest from rfl,
                 hrest] at ht
              have : unroll_json p (.obj ((k, v) :: rest)) = .error er := by
                show unrollEntries (withSep p) ((k, v) :: rest) = _
                rw [unrollEntries, hv, hrest]
              rw [this]
              exact .objConsTailErr p k v rest h er hh ht
          | ok t =>
              rw [show unroll_json p (.obj rest) = unrollEntries (withSep p) rest from rfl,
                 hrest] at ht
              have : unroll_json p (.obj ((k, v) :: rest)) = .ok (h ++ t) := by
                show unrollEntries (withSep p) ((k, v) :: rest) = _
                rw [unrollEntries, hv, hrest]
              rw [this]
              exact .objCons p k v rest h t hh ht

end

/-- Exhausting none of the source: with `n` triggers and at least `n` items
available, the loop emits the first `n` batches in order and exits 0. -/
theorem driverLoop_complete (n : Nat) (src : List Yield) (h : n ≤ src.length) :
    driverLoop n src =
      { out := ((src.take n).map (fun y => emit_points (toBatch y))).flatten,
        err := [], pulls := n, exitCode := 0 } := by
  induction n generalizing src with
  | zero => simp [driverLoop]
  | succ m ih =>
      cases src with
      | nil => simp at h
      | cons y rest =>
          have hm : m ≤ rest.length := by simpa using h
          rw [driverLoop, ih rest hm]
          simp

/-- Exhausting the source: with more triggers than items, the loop emits
every batch, then the failing pull logs the stop message and exits 1. -/
theorem driverLoop_exhaust (n : Nat) (src : List Yield) (h : src.length < n) :
    driverLoop n src =
      { out := (src.map (fun y => emit_points (toBatch y))).flatten,
        err := [stoppedMsg], pulls := src.length + 1, exitCode := 1 } := by
  induction src generalizing n with
  | nil =>
      cases n with
      | zero => simp at h
      | succ m => simp [driverLoop]
  | cons y rest ih =>
      cases n with
      | zero => simp at h
      | succ m =>
          have hm : rest.length < m := by simpa using h
          rw [driverLoop, ih m hm]
          simp

/-- Folding `Point.tag` over a tag list appends the tags in order. -/
theorem foldl_tag (tags : List (String × String)) (pt : Point) :
    tags.foldl (fun acc kv => acc.tag kv.1 kv.2) pt =
      { pt with tags := pt.tags ++ tags } := by
  induction tags generalizing pt with
  | nil => simp
  | cons kv rest ih =>
      rw [List.foldl_cons, ih]
      simp [Point.tag]

/-- Folding `Point.field` over a pair list appends the fields in order. -/
theorem foldl_field (pairs : List (String × Json)) (pt : Point) :
    pairs.foldl (fun acc kv => acc.field kv.1 kv.2) pt =
      { pt with fields := pt.fields ++ pairs } := by
  induction pairs generalizing pt with
  | nil => simp
  | cons kv rest ih =>
      rw [List.foldl_cons, ih]
      simp [Point.field]

/-!
## Claims
-/

/-- Claim C1: for every scalar (string, number, boolean) or null value `v`
and every prefix `p`, `unroll_json p v` yields exactly the one-element
sequence `[(p, v)]`; for every mapping, the result is the in-order
concatenation, over the entries in insertion order, of the recursive
flattening of each subvalue under the extended prefix
`p + "_" + key` (just `key` when `p` is empty); in particular
`unroll_json "" \x7b"a": 1, "b": \x7b"c": 2\x7d\x7d` is
`[("a", 1), ("b_c", 2)]`. -/
theorem flatten_scalar_mapping_spec :
    (∀ p s, unroll_json p (.str s) = .ok [(p, .str s)]) ∧
    (∀ p n, unroll_json p (.num n) = .ok [(p, .num n)]) ∧
    (∀ p b, unroll_json p (.bool b) = .ok [(p, .bool b)]) ∧
    (∀ p, unroll_json p .null = .ok [(p, .null)]) ∧
    (∀ p, unroll_json p (.obj []) = .ok []) ∧
    (∀ p k v rest h t, unroll_json (withSep p ++ k) v = .ok h →
        unroll_json p (.obj rest) = .ok t →
        unroll_json p (.obj ((k, v) :: rest)) = .ok (h ++ t)) ∧
    (withSep "" = "" ∧ ∀ p, p ≠ "" → withSep p = p ++ "_") ∧
    unroll_json "" (.obj [("a", .num 1), ("b", .obj [("c", .num 2)])]) =
      .ok [("a", .num 1), ("b_c", .num 2)] := by
  refine ⟨fun _ _ => rfl, fun _ _ => rfl, fun _ _ => rfl, fun _ => rfl,
    fun _ => rfl, ?_, ⟨rfl, ?_⟩, rfl⟩
  · intro p k v rest h t hh ht
    show unrollEntries (withSep p) ((k, v) :: rest) = _
    rw [unrollEntries, hh, show unrollEntries (withSep p) rest = .ok t from ht]
  · intro p hp
    simp [withSep, hp]

/-- Witness for C1: the mapping-concatenation rule applied at the concrete
example value. -/
theorem flatten_scalar_mapping_witness :
    unroll_json "" (.obj [("a", .num 1), ("b", .obj [("c", .num 2)])]) =
      .ok [("a", .num 1), ("b_c", .num 2)] :=
  flatten_scalar_mapping_spec.2.2.2.2.2.1 "" "a" (.num 1)
    [("b", .obj [("c", .num 2)])] [("a", .num 1)] [("b_c", .num 2)] rfl rfl

/-- Counterexample to C2 as stated: a sequence element carrying the keys
`id` and `value` **and an extra key** `x` is flattened successfully — the
code never requires the key set to be exactly `\x7bid, value\x7d`, only
that both keys be present, so the claimed SchemaError does not occur. -/
theorem flatten_exact_keys_counterexample :
    unroll_json "p"
        (.arr [.obj [("id", .str "a"), ("value", .num 1), ("x", .num 2)]]) =
      .ok [("p_a", .str "1")] := by
  simp [unroll_json, unrollList, getItem, List.lookup, withSep, pyStr, pyRepr]
  rfl

/-- Claim C2 (amended): every sequence element must be a mapping containing
at least the keys `id` and `value` (extra keys are allowed); each element,
in order, yields `(prefix + separator + str(id), str(value))`; an element
lacking either key fails with the re-raised `KeyError` (the spec's
SchemaError) carrying the fixed explanatory message; a non-mapping element
fails with a `TypeError`; and any otherwise unflattenable runtime type
fails with a `ValueError` identifying the offending type. The failure is
not limited to an offender in head position: the tail-propagation rule
(third conjunct) carries a failure of the rest of the sequence past a
well-formed head element unchanged, so together the conjuncts characterize
the run on a sequence by recursion — **any** offending element anywhere
makes the whole flattening fail. -/
theorem flatten_sequence_amended :
    (∀ p, unroll_json p (.arr []) = .ok []) ∧
    (∀ p e rest i v t, getItem e "id" = .ok i → getItem e "value" = .ok v →
        unroll_json p (.arr rest) = .ok t →
        unroll_json p (.arr (e :: rest)) =
          .ok ((withSep p ++ pyStr i, .str (pyStr v)) :: t)) ∧
    (∀ p e rest i v er, getItem e "id" = .ok i → getItem e "value" = .ok v →
        unroll_json p (.arr rest) = .error er →
        unroll_json p (.arr (e :: rest)) = .error er) ∧
    (∀ p e rest k, getItem e "id" = .error (.keyError k) →
        unroll_json p (.arr (e :: rest)) = .error (.keyError listKeyErrMsg)) ∧
    (∀ p e rest i k, getItem e "id" = .ok i →
        getItem e "value" = .error (.keyError k) →
        unroll_json p (.arr (e :: rest)) = .error (.keyError listKeyErrMsg)) ∧
    (∀ p e rest, (∀ es, e ≠ .obj es) →
        unroll_json p (.arr (e :: rest)) =
          .error (.typeError (pyType e ++ " is not subscriptable"))) ∧
    (∀ p t, unroll_json p (.other t) =
        .error (.valueError ("Unknown type `" ++ t ++ "`: " ++ pyStr (.other t)))) := by
  refine ⟨fun _ => rfl, ?_, ?_, ?_, ?_, ?_, fun _ _ => rfl⟩
  · intro p e rest i v t hid hval ht
    rw [unroll_json] at ht ⊢
    rw [unrollList, hid, hval]
    cases hrest : unrollList (withSep p) rest with
    | error er => rw [hrest] at ht; cases ht
    | ok t0 => rw [hrest] at ht; cases ht; rfl
  · intro p e rest i v er hid hval ht
    rw [unroll_json] at ht ⊢
    rw [unrollList, hid, hval]
    cases hrest : unrollList (withSep p) rest with
    | error er0 => rw [hrest] at ht; cases ht; rfl
    | ok t0 => rw [hrest] at ht; cases ht
  · intro p e rest k hid
    rw [unroll_json, unrollList, hid]
    rfl
  · intro p e rest i k hid hval
    rw [unroll_json, unrollList, hid, hval]
    rfl
  · intro p e rest hne
    have hid : getItem e "id" = .error (.typeError (pyType e ++ " is not subscriptable")) := by
      cases e with
      | obj es => exact absurd rfl (hne es)
      | str s => rfl
      | num n => rfl
      | bool b => rfl
      | null => rfl
      | arr xs => rfl
      | other t => rfl
    rw [unroll_json, unrollList, hid]
    rfl

/-- Witness for the amended C2: one well-formed element (with an `id` and a
`value`) yields its pair; and an element lacking `value` makes the whole
flattening fail even when it sits **after** a well-formed element — the
tail-propagation conjunct applied at a concrete two-element sequence. -/
theorem flatten_sequence_amended_witness :
    unroll_json "x" (.arr [.obj [("id", .str "t1"), ("value", .num 3)]]) =
      .ok [("x_t1", .str "3")] ∧
    unroll_json "x"
        (.arr [.obj [("id", .str "t1"), ("value", .num 3)],
               .obj [("id", .str "t2")]]) =
      .error (.keyError listKeyErrMsg) := by
  have hok := flatten_sequence_amended.2.1 "x"
    (.obj [("id", .str "t1"), ("value", .num 3)]) [] (.str "t1") (.num 3) []
    rfl rfl rfl
  have hbad := flatten_sequence_amended.2.2.2.2.1 "x"
    (.obj [("id", .str "t2")]) [] (.str "t2") "value" rfl rfl
  have htail := flatten_sequence_amended.2.2.1 "x"
    (.obj [("id", .str "t1"), ("value", .num 3)]) [.obj [("id", .str "t2")]]
    (.str "t1") (.num 3) (.keyError listKeyErrMsg) rfl rfl hbad
  exact ⟨by simpa [withSep, pyStr, pyRepr] using hok, htail⟩

/-- A concrete point used by closed driver runs. -/
def samplePoint : Point :=
  { measurement := "m", tags := [], fields := [("f", .num 1)] }

/-- A second concrete point. -/
def samplePoint2 : Point :=
  { measurement := "m", tags := [], fields := [("f", .num 2)] }

/-- A third concrete point. -/
def samplePoint3 : Point :=
  { measurement := "m", tags := [], fields := [("f", .num 3)] }

/-- Claim C3: in non-interactive mode, with `n` complete input lines before
EOF and a source that yields on each of its first `n` pulls, the driver
performs exactly one produce-and-emit cycle per line (`n` pulls, no line
dropped, no extra cycle), the output channel receives exactly the batches'
serialized lines in trigger order — one line per point, a flush after each
batch — a single `Point` counts as a one-element batch, and the process
exits 0. -/
theorem driver_trigger_cycles_spec (stdoutTty : Bool) (reads : List String)
    (source : List Yield)
    (h : (stdin_lines reads).length ≤ source.length) :
    (async_main stdoutTty false reads source).out =
      ((source.take (stdin_lines reads).length).map
        (fun y => emit_points (toBatch y))).flatten ∧
    (async_main stdoutTty false reads source).pulls = (stdin_lines reads).length ∧
    (async_main stdoutTty false reads source).exitCode = 0 ∧
    (∀ pt, toBatch (Yield.single pt) = [pt]) ∧
    (∀ ps, emit_points ps =
      ps.map (fun pt => OutEvent.line (to_line_protocol pt)) ++ [OutEvent.flush]) := by
  have hmain : async_main stdoutTty false reads source =
      driverLoop (stdin_lines reads).length source := rfl
  rw [hmain, driverLoop_complete (stdin_lines reads).length source h]
  exact ⟨rfl, rfl, rfl, fun _ => rfl, fun _ => rfl⟩

/-- Witness for C3: three input lines then EOF, three distinct single
points; the output is their three lines in order, each followed by its
flush, with three pulls and exit code 0. -/
theorem driver_trigger_cycles_witness :
    (async_main false false ["a\n", "b\n", "c\n"]
        [.single samplePoint, .single samplePoint2, .single samplePoint3]).out =
      [.line (to_line_protocol samplePoint), .flush,
       .line (to_line_protocol samplePoint2), .flush,
       .line (to_line_protocol samplePoint3), .flush] ∧
    (async_main false false ["a\n", "b\n", "c\n"]
        [.single samplePoint, .single samplePoint2, .single samplePoint3]).pulls = 3 ∧
    (async_main false false ["a\n", "b\n", "c\n"]
        [.single samplePoint, .single samplePoint2, .single samplePoint3]).exitCode = 0 := by
  have h := driver_trigger_cycles_spec false ["a\n", "b\n", "c\n"]
    [.single samplePoint, .single samplePoint2, .single samplePoint3]
    (by simp [stdin_lines])
  exact ⟨h.1, h.2.1, h.2.2.1⟩

/-- Claim C4: in non-interactive mode, when the source raises
`StopAsyncIteration` on some pull (here: the triggers outnumber the items
the source can yield), the driver logs the condition and the process exits
with the non-zero code 1; the output holds exactly the complete emissions
of all earlier successful cycles and nothing — malformed or otherwise —
for the failed trigger. -/
theorem driver_stop_fatal_spec (stdoutTty : Bool) (reads : List String)
    (source : List Yield)
    (h : source.length < (stdin_lines reads).length) :
    (async_main stdoutTty false reads source).out =
      (source.map (fun y => emit_points (toBatch y))).flatten ∧
    (async_main stdoutTty false reads source).err = [stoppedMsg] ∧
    (async_main stdoutTty false reads source).exitCode = 1 := by
  have hmain : async_main stdoutTty false reads source =
      driverLoop (stdin_lines reads).length source := rfl
  rw [hmain, driverLoop_exhaust (stdin_lines reads).length source h]
  exact ⟨rfl, rfl, rfl⟩

/-- Witness for C4: two input lines, a source of one point; the first cycle
is emitted completely, the second pull fails, the stop is logged and the
exit code is 1. -/
theorem driver_stop_fatal_witness :
    (async_main false false ["a\n", "b\n"] [.single samplePoint]).out =
      [.line (to_line_protocol samplePoint), .flush] ∧
    (async_main false false ["a\n", "b\n"] [.single samplePoint]).err = [stoppedMsg] ∧
    (async_main false false ["a\n", "b\n"] [.single samplePoint]).exitCode = 1 := by
  have h := driver_stop_fatal_spec false ["a\n", "b\n"] [.single samplePoint]
    (by simp [stdin_lines])
  exact ⟨h.1, h.2.1, h.2.2⟩

/-- Counterexample to C5 as stated: the code tests ttyness of **stderr**,
never of stdout. With stdout interactive but stderr not, the driver does
not take the one-shot path: it enters the trigger loop, writes the point's
line to the output channel (so the output is non-empty) and writes no
diagnostic — contradicting the claim that an interactive output
destination yields no output-channel write and a stderr diagnostic. -/
theorem driver_tty_check_counterexample :
    (async_main true false ["go\n"] [.single samplePoint]).out =
      [.line (to_line_protocol samplePoint), .flush] ∧
    (async_main true false ["go\n"] [.single samplePoint]).out ≠ [] ∧
    (async_main true false ["go\n"] [.single samplePoint]).err = [] := by
  refine ⟨?_, ?_, ?_⟩ <;>
    simp [async_main, stdin_lines, driverLoop, emit_points, toBatch]

/-- Claim C5 (amended): the ttyness test is on the **diagnostic channel
(stderr)**, not on the output channel. Whenever stderr is a tty (and the
contractually infinite source yields its first item), the driver pulls
exactly one point or point-batch, writes nothing to the output channel,
writes the human-readable diagnostic to stderr, and exits 0 without
entering the trigger-wait loop, whatever stdout's ttyness and whatever
input is pending. -/
theorem driver_tty_oneshot_amended (stdoutTty : Bool) (reads : List String)
    (y : Yield) (rest : List Yield) :
    async_main stdoutTty true reads (y :: rest) =
      { out := [], err := [ttyMsg, showYield y], pulls := 1, exitCode := 0 } := by
  simp [async_main]

/-- Claim C7: in non-interactive mode, end of the input stream is a normal
termination signal: once the triggers read before EOF are served, the loop
ends cleanly with exit code 0 and no error is reported; a `readline`
returning the empty string (EOF) stops trigger production. -/
theorem driver_eof_clean_spec (stdoutTty : Bool) (reads : List String)
    (source : List Yield)
    (h : (stdin_lines reads).length ≤ source.length) :
    (async_main stdoutTty false reads source).exitCode = 0 ∧
    (async_main stdoutTty false reads source).err = [] ∧
    (∀ rest, stdin_lines ("" :: rest) = []) ∧
    (∀ l rest, l ≠ "" → stdin_lines (l :: rest) = l :: stdin_lines rest) := by
  have hmain : async_main stdoutTty false reads source =
      driverLoop (stdin_lines reads).length source := rfl
  rw [hmain, driverLoop_complete (stdin_lines reads).length source h]
  refine ⟨rfl, rfl, fun rest => rfl, fun l rest hl => ?_⟩
  simp [stdin_lines, hl]

/-- Witness for C7: one line, then an EOF marker, then junk the reader
never sees; with a sufficient source the run exits 0 with no error. -/
theorem driver_eof_clean_witness :
    (async_main false false ["a\n", "", "ignored"] [.single samplePoint]).exitCode = 0 ∧
    (async_main false false ["a\n", "", "ignored"] [.single samplePoint]).err = [] := by
  have h := driver_eof_clean_spec false ["a\n", "", "ignored"] [.single samplePoint]
    (by simp [stdin_lines])
  exact ⟨h.1, h.2.1⟩

/-- Claim C6 — evaluation at the failing input. In a non-interactive run
with one trigger, distinct status and power snapshots available on every
fetch, the trigger loop of `query_data` fetches the status endpoint once
and the power endpoint **zero** times, and the emitted line is built from
the status value alone — the power data (`pw`) never reaches the output.
The interactive preview branch of the very same function does merge both
endpoints, so the spec's both-endpoints rule is the evident intent and the
loop is the slip. -/
theorem az_loop_ignores_power :
    query_data "azrouter"
        { stdoutIsTty := false, stdinReads := ["x\n"],
          statusBody := fun _ => [("s", .num 1)],
          powerBody := fun _ => [("pw", .num 2)] } =
      .ok { statusCalls := 1, powerCalls := 0,
            out := ["azrouter s=1"], log := [] } := by
  simp [query_data, stdin_lines, azLoop, build_point, unroll_json, unrollEntries,
    withSep, to_line_protocol, foldl_field, pyStr, pyRepr, String.intercalate,
    String.join, Point.field, Point.tag]
  rfl

/-- Claim C8: `build_point` returns a point carrying the measurement name,
exactly the input tags verbatim in order, and exactly the pairs produced by
flattening the value with empty prefix, in the flattener's output order; it
is a pure function of its arguments (its whole effect is the returned
value, an exception of the flattener propagating instead). -/
theorem build_point_spec (m : String) (tags : List (String × String))
    (j : Json) (fs : List (String × Json))
    (h : unroll_json "" j = .ok fs) :
    build_point m tags j =
      .ok { measurement := m, tags := tags, fields := fs } := by
  unfold build_point
  rw [h]
  simp only [foldl_tag, foldl_field, List.nil_append]

/-- Witness for C8: a concrete build with one tag and a nested value. -/
theorem build_point_witness :
    build_point "azrouter" [("host", "h1")] (.obj [("a", .num 1)]) =
      .ok { measurement := "azrouter", tags := [("host", "h1")],
            fields := [("a", .num 1)] } :=
  build_point_spec "azrouter" [("host", "h1")] (.obj [("a", .num 1)])
    [("a", .num 1)] rfl

/-- Claim C9: the flattener is deterministic and side-effect-free — any two
complete runs of `unroll_json` on the same `(prefix, value)` pair observe
the same outcome. Formally: the big-step yield relation `Unrolls`, which
mirrors the code's control paths, is functional (any two derivations for
one input agree) and total (the pure run of `unroll_json`, which mutates
nothing, gives a derivation for every input). -/
theorem flatten_deterministic :
    (∀ p v r₁ r₂, Unrolls p v r₁ → Unrolls p v r₂ → r₁ = r₂) ∧
    (∀ p v, Unrolls p v (unroll_json p v)) := by
  refine ⟨fun p v r₁ r₂ h₁ h₂ => ?_, fun p v => unrolls_run p v⟩
  rw [← unrolls_eq_run h₁, ← unrolls_eq_run h₂]

/-- Witness for C9: determinism and totality applied at a concrete input
force the run's value. -/
theorem flatten_deterministic_witness :
    unroll_json "" (.bool true) = .ok [("", .bool true)] :=
  flatten_deterministic.1 "" (.bool true) _ _
    (flatten_deterministic.2 "" (.bool true)) (Unrolls.scalarBool "" true)

/-- Claim C10: the goodwe static tag set always contains
`("ip_address", ip)`, and for each probed optional attribute a tag is
present exactly when the inverter has the attribute with a truthy
(non-empty) value — a present-but-empty value is skipped exactly like an
absent one. -/
theorem goodwe_static_tags_spec (ip : String) (inv : Inverter) :
    ("ip_address", ip) ∈ static_tags ip inv ∧
    (∀ a, a ∈ tagAttrs → ∀ v,
      ((a, v) ∈ static_tags ip inv ↔ (getattrOpt inv a = some v ∧ v ≠ ""))) := by
  constructor
  · exact List.mem_cons_self _ _
  · intro a ha v
    have hip : a ≠ "ip_address" := by
      intro hcontra
      rw [hcontra] at ha
      simp [tagAttrs] at ha
    constructor
    · intro hmem
      rcases List.mem_cons.1 hmem with heq | hmem2
      · exact absurd (congrArg Prod.fst heq) hip
      · rcases List.mem_filterMap.1 hmem2 with ⟨a0, _, hf⟩
        cases hga : getattrOpt inv a0 with
        | none => simp [hga] at hf
        | some v0 =>
            simp only [hga] at hf
            by_cases hv0 : v0 = ""
            · rw [if_pos hv0] at hf; cases hf
            · rw [if_neg hv0] at hf
              have ha0 : a0 = a := congrArg Prod.fst (Option.some.inj hf)
              have hvv : v0 = v := congrArg Prod.snd (Option.some.inj hf)
              subst ha0
              subst hvv
              exact ⟨hga, hv0⟩
    · rintro ⟨hga, hv⟩
      refine List.mem_cons_of_mem _ (List.mem_filterMap.2 ⟨a, ha, ?_⟩)
      simp only [hga]
      rw [if_neg hv]

/-- A concrete inverter: one attribute absent, one present but empty (both
must be skipped), the rest present and truthy. -/
def invExample : Inverter :=
  { model_name := some "GW5000"
    serial_number := some "S123"
    dsp1_version := none
    dsp2_version := some ""
    arm_version := none
    firmware := some "1.0" }

/-- Witness for C10: at a concrete inverter, the `ip_address` tag is
present and the membership criterion instantiates for a probed attribute. -/
theorem goodwe_static_tags_witness :
    ("ip_address", "10.0.0.5") ∈ static_tags "10.0.0.5" invExample ∧
    (("serial_number", "S123") ∈ static_tags "10.0.0.5" invExample ↔
      (getattrOpt invExample "serial_number" = some "S123" ∧ "S123" ≠ "")) :=
  ⟨(goodwe_static_tags_spec "10.0.0.5" invExample).1,
   (goodwe_static_tags_spec "10.0.0.5" invExample).2 "serial_number"
     (by simp [tagAttrs]) "S123"⟩
